import Mathlib

/-!
Verification of the FraudDetectPro fraud-scoring pipeline specification
against the TypeScript source of the repository.

The frontend utilities (`buildTransactionFeatures`,
`validateTransactionFeatures`, `apiService.predictTransaction`, the two
`ManualPrediction` page handlers and the CSV batch parser) are embedded
directly from the source.  The backend inference service (validator →
extractor → assembler → ensemble scorer → threshold engine → explainer)
is not present in the repository; where a claim depends on it, the
component is modelled from the spec and marked as such in its doc
comment.
-/

/-- A JavaScript number: NaN, +Infinity, -Infinity, or a finite value
    (modelled as an exact rational). -/
inductive JNum where
  | nan : JNum
  | posInf : JNum
  | negInf : JNum
  | fin : ℚ → JNum
deriving DecidableEq, Repr

namespace JNum

/-- JavaScript `isNaN` restricted to numbers. -/
def isNaN : JNum → Bool
  | .nan => true
  | _ => false

/-- Whether the number is finite (neither NaN nor an infinity). -/
def isFinite : JNum → Bool
  | .fin _ => true
  | _ => false

/-- The finite value, when there is one. -/
def toFinite : JNum → Option ℚ
  | .fin q => some q
  | _ => none

/-- JavaScript truthiness of a number: NaN and 0 are falsy. -/
def isTruthy : JNum → Bool
  | .nan => false
  | .fin q => decide (q ≠ 0)
  | _ => true

end JNum

/-- JavaScript `x || 0` on a number `x`: NaN and 0 (the falsy numbers)
    become 0, everything else is kept.  This is the coercion applied by
    `parseFloat(v) || 0` in the first `ManualPrediction` handler. -/
def jsOrZero (x : JNum) : JNum :=
  if x.isTruthy then x else JNum.fin 0

/-- Embeds `buildTransactionFeatures` (transaction utilities file): throws when
    `vFeatures.length !== 28`, otherwise returns
    `[time, ...vFeatures, amount]`.  The thrown `Error` is the `.error`
    branch. -/
def buildTransactionFeatures (time : JNum) (vFeatures : List JNum)
    (amount : JNum) : Except String (List JNum) :=
  if vFeatures.length != 28 then
    .error "Expected 28 V features"
  else
    .ok ([time] ++ vFeatures ++ [amount])

/-- Embeds `validateTransactionFeatures` (transaction utilities file): the input
    is a `number[]`, so the `Array.isArray` and `typeof f` number
    checks always pass; the remaining checks are the length test and
    `!isNaN(f)` on every element.  Note the code tests only `isNaN`, not
    finiteness, so `Infinity` passes. -/
def validateTransactionFeatures (features : List JNum) :
    Except String Bool :=
  if features.length != 30 then
    .error "Expected 30 features"
  else if !(features.all fun f => !f.isNaN) then
    .error "All features must be valid numbers"
  else
    .ok true

/-- Embeds `apiService.predictTransaction` (`Frontend/src/services/api.ts`):
    throws when `features.length !== 30`, otherwise posts exactly the
    given feature array to `/predict`.  The `.ok` value is the feature
    array as sent (unmodified). -/
def predictTransaction (features : List JNum) :
    Except String (List JNum) :=
  if features.length != 30 then
    .error "Expected 30 features"
  else
    .ok features

example : predictTransaction (List.replicate 29 (JNum.fin 0))
    = .error "Expected 30 features" := rfl

example : validateTransactionFeatures
    (JNum.posInf :: List.replicate 29 (JNum.fin 0)) = .ok true := rfl

example : buildTransactionFeatures (JNum.fin 1)
    (List.replicate 28 (JNum.fin 0)) (JNum.fin 2)
    = .ok ([JNum.fin 1] ++ List.replicate 28 (JNum.fin 0) ++ [JNum.fin 2]) :=
  rfl

/-- Embeds `handlePredict` of the first `ManualPrediction` page variant.  The
    form fields are strings; the handler builds
    `[parseFloat(time) || 0, ...vFeatures.map(v => parseFloat(v) || 0),
    parseFloat(amount) || 0]`, checks the length, then calls
    `apiService.predictTransaction`.  Inputs here are the `parseFloat`
    results of each field (NaN when the string does not parse). -/
def handlePredictV1 (timeParsed : JNum) (vParsed : List JNum)
    (amountParsed : JNum) : Except String (List JNum) :=
  let features :=
    [jsOrZero timeParsed] ++ vParsed.map jsOrZero ++ [jsOrZero amountParsed]
  if features.length != 30 then
    .error "Invalid feature count. Expected 30 features."
  else
    predictTransaction features

/-- Embeds `handlePredict` of the second `ManualPrediction` page variant (the
    same code appears in both copies of that page).  `vFeatures` state
    entries are numbers (each set via `parseFloat(value) || 0`); time and
    amount are parsed with a bare `parseFloat`.  The handler rejects the
    request when the built feature array contains NaN, then calls
    `apiService.predictTransaction`. -/
def handlePredictV2 (timeParsed : JNum) (vFeatures : List JNum)
    (amountParsed : JNum) : Except String (List JNum) :=
  let features := [timeParsed] ++ vFeatures ++ [amountParsed]
  if features.length != 30 then
    .error "Invalid feature count"
  else if features.any JNum.isNaN then
    .error "Please enter valid numeric values for all fields"
  else
    predictTransaction features

/-- One CSV cell after quote-stripping and trimming, abstracted at the
    `parseFloat` boundary: `parse` is the result of
    `parseFloat(cleaned)` (NaN when the cell does not parse as a number)
    and `cleanedEmpty` records whether the cleaned string is empty. -/
structure Cell where
  parse : JNum
  cleanedEmpty : Bool
deriving DecidableEq, Repr

/-- Embeds the `values.map(...)` step of `handleFileChange`: `isNaN(num) ? 0 : num` —
    a cell that does not parse as a number is replaced by 0. -/
def numericValue (c : Cell) : JNum :=
  if c.parse.isNaN then JNum.fin 0 else c.parse

/-- The header test in `handleFileChange`: some cell is non-empty after
    cleaning yet does not parse as a number. -/
def hasNonNumeric (row : List Cell) : Bool :=
  row.any fun c => c.parse.isNaN && !c.cleanedEmpty

/-- The row-acceptance step of `handleFileChange` (after numeric
    conversion): accept a 30-column row as is, truncate a 31-column row
    to its first 30 values (the Class label is dropped), skip any other
    width. -/
def acceptRow (row : List Cell) : Option (List JNum) :=
  let numericValues := row.map numericValue
  if numericValues.length == 30 then
    some numericValues
  else if numericValues.length == 31 then
    some (numericValues.take 30)
  else
    none

/-- The parsing loop of `handleFileChange` over the non-blank lines.
    At index 0 the row is skipped as a header when it has a non-numeric
    cell or its numeric width is not 30 (the `headerSkipped` flag of the
    source is read only at index 0 and is always false there, so it is
    elided); every other row goes through `acceptRow`. -/
def parseLoop : List (List Cell) → Nat → List (List JNum)
  | [], _ => []
  | row :: rest, i =>
    if i == 0 && (hasNonNumeric row || (row.map numericValue).length != 30) then
      parseLoop rest (i + 1)
    else
      match acceptRow row with
      | some r => r :: parseLoop rest (i + 1)
      | none => parseLoop rest (i + 1)

/-- The parsed data of `handleFileChange`: the loop started at line index 0. -/
def parseCsv (rows : List (List Cell)) : List (List JNum) :=
  parseLoop rows 0

example :
    parseCsv [List.replicate 31 ⟨JNum.fin 1, false⟩] = [] := rfl

example :
    parseCsv [List.replicate 30 ⟨JNum.fin 1, false⟩,
              List.replicate 31 ⟨JNum.fin 2, false⟩]
    = [List.replicate 30 (JNum.fin 1), List.replicate 30 (JNum.fin 2)] := by
  rfl

/-- The error taxonomy of the prediction service (§7): shape and value
    errors for malformed client input. -/
inductive CoreError where
  | shapeError : CoreError
  | valueError : CoreError
deriving DecidableEq, Repr

/-- The binary verdict of the threshold decision engine. -/
inductive Verdict where
  | fraudulent : Verdict
  | legitimate : Verdict
deriving DecidableEq, Repr

/-- Modelled from the spec: the backend FeatureVector Validator (§4.1)
    is absent from the repository source.  It fails with `ShapeError`
    when the length is not 30 and with `ValueError` when any element is
    non-numeric, NaN or infinite; on success it yields the finite
    values. -/
def coreValidate (raw : List JNum) : Except CoreError (List ℚ) :=
  if raw.length != 30 then
    .error .shapeError
  else
    match raw.mapM JNum.toFinite with
    | some qs => .ok qs
    | none => .error .valueError

/-- Modelled from the spec: the Threshold Decision Engine (§4.5) is
    absent from the repository source.  `decide(probability, threshold)`
    yields Fraudulent exactly when `probability >= threshold` (the bound
    is closed: equality counts as Fraudulent) and reports the threshold
    used. -/
def decideVerdict (probability threshold : ℚ) : Verdict × ℚ :=
  (if threshold ≤ probability then .fraudulent else .legitimate, threshold)

/-- Modelled from the spec: the Ensemble Scorer (§4.4) is absent from
    the repository source.  Each member is a weight paired with its
    `predictProbabilityOfPositiveClass` function; soft voting combines
    them as `(Σ w_i * p_i) / (Σ w_i)`. -/
def softVote (members : List (ℚ × (List ℚ → ℚ))) (x : List ℚ) : ℚ :=
  ((members.map fun m => m.1 * m.2 x).sum) / ((members.map fun m => m.1).sum)

/-- Modelled from the spec: the process-wide configuration of the absent
    backend — extractor, ensemble members and the calibrated decision
    threshold, loaded once at startup (§4.2, §4.4, §4.5, §6). -/
structure CoreConfig where
  extract : List ℚ → List ℚ
  members : List (ℚ × (List ℚ → ℚ))
  threshold : ℚ

/-- The score returned by `predict` (§6): probability as a percentage,
    verdict, threshold used, and the hybrid feature count. -/
structure ScoreResult where
  probability : ℚ
  prediction : Verdict
  thresholdUsed : ℚ
  hybridFeatureCount : Nat
deriving DecidableEq, Repr

/-- Modelled from the spec: the backend `predict` operation (§4.7, §6)
    is absent from the repository source.  It validates the raw input,
    assembles the hybrid vector by pure concatenation (§4.3), soft-votes
    the ensemble, applies the threshold engine on the 0–1 probability
    and reports the probability as a percentage in 0–100. -/
def corePredict (cfg : CoreConfig) (raw : List JNum) :
    Except CoreError ScoreResult :=
  match coreValidate raw with
  | .error e => .error e
  | .ok f =>
    let hybrid := f ++ cfg.extract f
    let p := softVote cfg.members hybrid
    let d := decideVerdict p cfg.threshold
    .ok ⟨100 * p, d.1, d.2, hybrid.length⟩

/-- Modelled from the spec: the backend service state — the immutable
    configuration plus the mutable prediction statistics that the
    `/api/stats` endpoint reports (total predictions, fraud detected). -/
structure ServiceState where
  cfg : CoreConfig
  totalPredictions : Nat
  fraudDetected : Nat

/-- Modelled from the spec: one stateful `predict` call — the result is
    computed from the immutable configuration and the input only; a
    successful call updates the prediction statistics. -/
def corePredictS (raw : List JNum) (s : ServiceState) :
    Except CoreError ScoreResult × ServiceState :=
  match corePredict s.cfg raw with
  | .error e => (.error e, s)
  | .ok r =>
    (.ok r,
     { s with
        totalPredictions := s.totalPredictions + 1,
        fraudDetected :=
          s.fraudDetected + (if r.prediction = .fraudulent then 1 else 0) })

/-- The three risk buckets used by the `ManualPrediction` pages. -/
inductive RiskLevel where
  | high : RiskLevel
  | medium : RiskLevel
  | low : RiskLevel
deriving DecidableEq, Repr

/-- Embeds `getRiskLevel` of the first `ManualPrediction` page variant:
    High when `probability >= 0.7`, Medium when `>= 0.5`, else Low. -/
def getRiskLevel (probability : ℚ) : RiskLevel :=
  if 7/10 ≤ probability then .high
  else if 1/2 ≤ probability then .medium
  else .low

/-- The probability percentage displayed by the result panel of the
    first variant: `(result.probability * 100).toFixed(2)` — the numeric value
    before string formatting. -/
def displayedPercentV1 (probability : ℚ) : ℚ :=
  probability * 100

/-- Embeds `riskPercentage` of the second `ManualPrediction` page variant (and
    of its duplicate page): `result.probability.toFixed(2)` — the
    probability is used directly as a percentage. -/
def riskPercentage (probability : ℚ) : ℚ :=
  probability

/-- Embeds `riskLevel` of the second `ManualPrediction` page variant: High when
    `probability >= 70`, Medium when `>= 50`, else Low. -/
def riskLevelV2 (probability : ℚ) : RiskLevel :=
  if 70 ≤ probability then .high
  else if 50 ≤ probability then .medium
  else .low

example : getRiskLevel 50 = .high := by norm_num [getRiskLevel]
example : riskLevelV2 50 = .medium := by norm_num [riskLevelV2]

/-- Modelled from the spec: the Explanation Engine (§4.6) is absent from
    the repository source.  The contribution of one ensemble member to an
    explanation over `n` hybrid features: its voting weight, its base
    value, its per-feature attributions, and its predicted
    probability. -/
structure MemberExplanation (n : Nat) where
  weight : ℚ
  baseValue : ℚ
  attr : Fin n → ℚ
  prob : ℚ

/-- Total ensemble weight of the explained members. -/
def totalWeight {n : Nat} (ms : List (MemberExplanation n)) : ℚ :=
  (ms.map fun m => m.weight).sum

/-- Modelled from the spec: the combined base value — the weighted
    average of the member base values, mirroring soft voting (§4.6,
    §9). -/
def combinedBase {n : Nat} (ms : List (MemberExplanation n)) : ℚ :=
  (ms.map fun m => m.weight * m.baseValue).sum / totalWeight ms

/-- Modelled from the spec: the combined attribution of feature `j` —
    the weighted average of the member attributions for `j`, mirroring
    soft voting (§4.6, §9). -/
def combinedAttr {n : Nat} (ms : List (MemberExplanation n)) (j : Fin n) : ℚ :=
  (ms.map fun m => m.weight * m.attr j).sum / totalWeight ms

/-- Modelled from the spec: the final probability of the explained
    prediction — the soft-voted weighted average of the member
    probabilities (§4.4). -/
def combinedProb {n : Nat} (ms : List (MemberExplanation n)) : ℚ :=
  (ms.map fun m => m.weight * m.prob).sum / totalWeight ms

lemma list_sum_map_add {α : Type} (l : List α) (f g : α → ℚ) :
    (l.map fun x => f x + g x).sum = (l.map f).sum + (l.map g).sum := by
  induction l with
  | nil => simp
  | cons a tl ih => simp [ih]; ring

lemma sum_univ_list_sum {α : Type} {n : Nat} (ms : List α)
    (f : α → Fin n → ℚ) :
    ∑ j : Fin n, (ms.map fun m => f m j).sum
      = (ms.map fun m => ∑ j : Fin n, f m j).sum := by
  induction ms with
  | nil => simp
  | cons a tl ih => simp [Finset.sum_add_distrib, ih]

lemma acceptRow_length (row : List Cell) (r : List JNum)
    (h : acceptRow row = some r) : r.length = 30 := by
  unfold acceptRow at h
  simp only at h
  split at h
  · rename_i h30
    simp only [beq_iff_eq] at h30
    cases h
    exact h30
  · split at h
    · rename_i h31
      simp only [beq_iff_eq] at h31
      cases h
      simp [List.length_take, h31]
    · exact absurd h (by simp)

lemma parseLoop_mem_length (rows : List (List Cell)) :
    ∀ i r, r ∈ parseLoop rows i → r.length = 30 := by
  induction rows with
  | nil => intro i r h; simp [parseLoop] at h
  | cons row rest ih =>
    intro i r h
    unfold parseLoop at h
    split at h
    · exact ih _ r h
    · rename_i hna
      cases hacc : acceptRow row with
      | none => rw [hacc] at h; exact ih _ r h
      | some a =>
        rw [hacc] at h
        rcases List.mem_cons.mp h with h1 | h2
        · subst h1; exact acceptRow_length row r hacc
        · exact ih _ r h2

/-- C4: the feature vector consumed by predict is ordered
    [time, v1..v28, amount]: given 28 V-features,
    `buildTransactionFeatures` yields a 30-element sequence with time at
    index 0, the V-features in index order at positions 1..28, and
    amount at index 29. -/
theorem c4_feature_order (time : JNum) (v : List JNum) (amount : JNum)
    (h : v.length = 28) :
    buildTransactionFeatures time v amount = .ok ([time] ++ v ++ [amount]) ∧
    ([time] ++ v ++ [amount]).length = 30 ∧
    ([time] ++ v ++ [amount])[0]? = some time ∧
    (∀ i < 28, ([time] ++ v ++ [amount])[i + 1]? = v[i]?) ∧
    ([time] ++ v ++ [amount])[29]? = some amount := by
  refine ⟨?_, ?_, ?_, ?_, ?_⟩
  · simp [buildTransactionFeatures, h]
  · simp [h]
  · simp
  · intro i hi
    have h1 : ([time] ++ v ++ [amount])[i + 1]? = (v ++ [amount])[i]? := by
      simp
    rw [h1, List.getElem?_append]
    simp [h, hi]
  · have h1 : ([time] ++ v ++ [amount])[29]? = (v ++ [amount])[28]? := by
      simp
    rw [h1, List.getElem?_append]
    simp [h]

theorem c4_witness :
    buildTransactionFeatures (JNum.fin 3) (List.replicate 28 (JNum.fin 1))
        (JNum.fin 2)
      = .ok ([JNum.fin 3] ++ List.replicate 28 (JNum.fin 1) ++ [JNum.fin 2]) ∧
    ([JNum.fin 3] ++ List.replicate 28 (JNum.fin 1) ++ [JNum.fin 2])[0]?
      = some (JNum.fin 3) ∧
    ([JNum.fin 3] ++ List.replicate 28 (JNum.fin 1) ++ [JNum.fin 2])[29]?
      = some (JNum.fin 2) := by
  have h := c4_feature_order (JNum.fin 3) (List.replicate 28 (JNum.fin 1))
    (JNum.fin 2) (by decide)
  exact ⟨h.1, h.2.2.1, h.2.2.2.2⟩

/-- C9: `buildTransactionFeatures(time, vFeatures, amount)` throws
    exactly when `vFeatures` does not have 28 elements, and otherwise
    returns the 30-element array `[time] ++ vFeatures ++ [amount]`. -/
theorem c9_build_characterization (time : JNum) (v : List JNum)
    (amount : JNum) :
    (v.length ≠ 28 → (buildTransactionFeatures time v amount).isOk = false) ∧
    (v.length = 28 →
      buildTransactionFeatures time v amount = .ok ([time] ++ v ++ [amount]) ∧
      ([time] ++ v ++ [amount]).length = 30) := by
  constructor
  · intro hne
    simp [buildTransactionFeatures, hne, Except.isOk, Except.toBool]
  · intro h
    exact ⟨by simp [buildTransactionFeatures, h], by simp [h]⟩

theorem c9_witness :
    (buildTransactionFeatures (JNum.fin 0) [] (JNum.fin 1)).isOk = false ∧
    buildTransactionFeatures (JNum.fin 0) (List.replicate 28 (JNum.fin 5))
        (JNum.fin 1)
      = .ok ([JNum.fin 0] ++ List.replicate 28 (JNum.fin 5) ++ [JNum.fin 1]) :=
  ⟨(c9_build_characterization (JNum.fin 0) [] (JNum.fin 1)).1 (by decide),
   ((c9_build_characterization (JNum.fin 0) (List.replicate 28 (JNum.fin 5))
      (JNum.fin 1)).2 (by decide)).1⟩

/-- C7 counterexample: a 30-element sequence whose first element is
    Infinity (not finite) is accepted by `validateTransactionFeatures`
    with `.ok true` — no value error is raised, because the code only
    tests `isNaN`, never finiteness. -/
theorem c7_counterexample :
    validateTransactionFeatures
        (JNum.posInf :: List.replicate 29 (JNum.fin 0)) = .ok true ∧
    (JNum.posInf :: List.replicate 29 (JNum.fin 0)).length = 30 ∧
    JNum.posInf.isFinite = false := by
  refine ⟨rfl, by decide, rfl⟩

/-- C7 amended: `validateTransactionFeatures` accepts exactly the
    30-element sequences of non-NaN numbers (so infinite values are
    accepted, not rejected); a 30-element sequence containing NaN is
    rejected with the value error. -/
theorem c7_amended (features : List JNum) :
    (validateTransactionFeatures features = .ok true ↔
      features.length = 30 ∧ ∀ f ∈ features, f.isNaN = false) ∧
    (features.length = 30 → JNum.nan ∈ features →
      validateTransactionFeatures features
        = .error "All features must be valid numbers") := by
  constructor
  · unfold validateTransactionFeatures
    constructor
    · intro h
      split at h
      · cases h
      · split at h
        · cases h
        · rename_i h30 hall
          have hall2 : (features.all fun f => !f.isNaN) = true := by
            revert hall
            cases features.all fun f => !f.isNaN <;> simp
          rw [List.all_eq_true] at hall2
          simp only [bne_iff_ne, ne_eq, Decidable.not_not] at h30
          exact ⟨h30, fun f hf => by simpa using hall2 f hf⟩
    · intro ⟨h30, hall⟩
      have hb : (features.all fun f => !f.isNaN) = true := by
        rw [List.all_eq_true]
        intro f hf
        simp [hall f hf]
      simp [h30, hb]
  · intro h30 hmem
    have hb : (features.all fun f => !f.isNaN) = false := by
      rw [List.all_eq_false]
      exact ⟨JNum.nan, hmem, by simp [JNum.isNaN]⟩
    unfold validateTransactionFeatures
    simp [h30, hb]

theorem c7_witness :
    validateTransactionFeatures
        (JNum.fin 7 :: List.replicate 29 (JNum.fin 0)) = .ok true ∧
    validateTransactionFeatures
        (JNum.nan :: List.replicate 29 (JNum.fin 0))
      = .error "All features must be valid numbers" :=
  ⟨(c7_amended (JNum.fin 7 :: List.replicate 29 (JNum.fin 0))).1.mpr
      ⟨by decide, by decide⟩,
   (c7_amended (JNum.nan :: List.replicate 29 (JNum.fin 0))).2
      (by decide) (by decide)⟩

/-- C2 counterexample: the first `ManualPrediction` handler, given a
    time field whose parse is NaN (and well-formed remaining fields),
    coerces the NaN to 0 via `parseFloat(...) || 0` and produces a
    prediction request — no value error is raised even though the parsed
    input sequence contains NaN. -/
theorem c2_counterexample :
    (JNum.nan :: (List.replicate 28 (JNum.fin 0) ++ [JNum.fin 100])).any
        JNum.isNaN = true ∧
    handlePredictV1 JNum.nan (List.replicate 28 (JNum.fin 0)) (JNum.fin 100)
      = .ok ([JNum.fin 0] ++ List.replicate 28 (JNum.fin 0) ++ [JNum.fin 100]) := by
  exact ⟨rfl, rfl⟩

/-- C2 amended: a 30-element sequence containing NaN is rejected with a
    value error by `validateTransactionFeatures`, and the second
    `ManualPrediction` handler refuses to predict when its feature array
    contains NaN; the first handler instead coerces a NaN parse to 0
    (`parseFloat(v) || 0`) and produces a prediction. -/
theorem c2_amended (features : List JNum) (timeParsed amountParsed : JNum)
    (v : List JNum)
    (hlen : features.length = 30) (hmem : JNum.nan ∈ features)
    (hv : v.length = 28)
    (hmem2 : JNum.nan ∈ [timeParsed] ++ v ++ [amountParsed]) :
    validateTransactionFeatures features
      = .error "All features must be valid numbers" ∧
    handlePredictV2 timeParsed v amountParsed
      = .error "Please enter valid numeric values for all fields" ∧
    jsOrZero JNum.nan = JNum.fin 0 := by
  refine ⟨?_, ?_, rfl⟩
  · have hb : (features.all fun f => !f.isNaN) = false := by
      rw [List.all_eq_false]
      exact ⟨JNum.nan, hmem, by simp [JNum.isNaN]⟩
    unfold validateTransactionFeatures
    simp [hlen, hb]
  · have hlen2 : ([timeParsed] ++ v ++ [amountParsed]).length = 30 := by
      simp [hv]
    have hany : ([timeParsed] ++ v ++ [amountParsed]).any JNum.isNaN = true := by
      rw [List.any_eq_true]
      exact ⟨JNum.nan, hmem2, rfl⟩
    unfold handlePredictV2
    simp only [hlen2, hany]
    simp

theorem c2_witness :
    validateTransactionFeatures (JNum.nan :: List.replicate 29 (JNum.fin 0))
      = .error "All features must be valid numbers" ∧
    handlePredictV2 JNum.nan (List.replicate 28 (JNum.fin 0)) (JNum.fin 1)
      = .error "Please enter valid numeric values for all fields" ∧
    jsOrZero JNum.nan = JNum.fin 0 :=
  c2_amended (JNum.nan :: List.replicate 29 (JNum.fin 0)) JNum.nan (JNum.fin 1)
    (List.replicate 28 (JNum.fin 0)) (by decide) (by decide) (by decide)
    (by decide)

/-- C1 counterexample: through the CSV batch path, a 31-element row
    (after a valid 30-column first row) is silently truncated to its
    first 30 values and a prediction request is produced for it — the
    over-length input does not fail with a shape error. -/
theorem c1_counterexample :
    (List.replicate 31 (Cell.mk (JNum.fin 2) false)).length = 31 ∧
    parseCsv [List.replicate 30 (Cell.mk (JNum.fin 1) false),
              List.replicate 31 (Cell.mk (JNum.fin 2) false)]
      = [List.replicate 30 (JNum.fin 1), List.replicate 30 (JNum.fin 2)] ∧
    predictTransaction (List.replicate 30 (JNum.fin 2))
      = .ok (List.replicate 30 (JNum.fin 2)) := by
  exact ⟨by decide, rfl, rfl⟩

/-- C1 amended: `apiService.predictTransaction` itself rejects every
    feature array whose length is not 30 with a shape error and sends a
    length-30 array exactly as given (no truncation or padding at that
    level); the CSV batch parser, however, truncates 31-column rows
    (beyond the first line) to their first 30 values before
    prediction. -/
theorem c1_amended (features : List JNum) :
    (features.length ≠ 30 →
      predictTransaction features = .error "Expected 30 features") ∧
    (features.length = 30 → predictTransaction features = .ok features) := by
  constructor
  · intro h
    unfold predictTransaction
    simp [h]
  · intro h
    unfold predictTransaction
    simp [h]

theorem c1_witness :
    predictTransaction (List.replicate 31 (JNum.fin 0))
      = .error "Expected 30 features" ∧
    predictTransaction (List.replicate 29 (JNum.fin 0))
      = .error "Expected 30 features" ∧
    predictTransaction (List.replicate 30 (JNum.fin 0))
      = .ok (List.replicate 30 (JNum.fin 0)) :=
  ⟨(c1_amended (List.replicate 31 (JNum.fin 0))).1 (by decide),
   (c1_amended (List.replicate 29 (JNum.fin 0))).1 (by decide),
   (c1_amended (List.replicate 30 (JNum.fin 0))).2 (by decide)⟩

/-- C10 counterexample: a CSV whose single row has 31 all-numeric
    columns contributes nothing — the row is skipped by the first-line
    header test (its width is not 30), not truncated to its first 30
    values as the claim states for 31-column rows. -/
theorem c10_counterexample :
    (List.replicate 31 (Cell.mk (JNum.fin 1) false)).length = 31 ∧
    hasNonNumeric (List.replicate 31 (Cell.mk (JNum.fin 1) false)) = false ∧
    parseCsv [List.replicate 31 (Cell.mk (JNum.fin 1) false)] = [] := by
  exact ⟨by decide, rfl, rfl⟩

/-- C10 amended: every row the CSV batch parser accepts has exactly 30
    numeric entries; beyond the first line, a 31-column row contributes
    its first 30 values, a 30-column row is taken whole, any other width
    is skipped, and a cell that does not parse as a number is replaced
    by 0 (the first line is skipped as a header whenever it has a
    non-numeric cell or a width other than 30). -/
theorem c10_amended (rows : List (List Cell)) (row : List Cell) :
    (∀ r ∈ parseCsv rows, r.length = 30) ∧
    (row.length = 31 →
      acceptRow row = some ((row.map numericValue).take 30)) ∧
    (row.length = 30 → acceptRow row = some (row.map numericValue)) ∧
    (row.length ≠ 30 → row.length ≠ 31 → acceptRow row = none) ∧
    (∀ c : Cell, c.parse.isNaN = true → numericValue c = JNum.fin 0) := by
  refine ⟨?_, ?_, ?_, ?_, ?_⟩
  · exact fun r hr => parseLoop_mem_length rows 0 r hr
  · intro h31
    unfold acceptRow
    simp [h31]
  · intro h30
    unfold acceptRow
    simp [h30]
  · intro h30 h31
    unfold acceptRow
    simp [h30, h31]
  · intro c hc
    unfold numericValue
    simp [hc]

theorem c10_witness :
    acceptRow (List.replicate 31 (Cell.mk (JNum.fin 1) false))
      = some (((List.replicate 31 (Cell.mk (JNum.fin 1) false)).map
          numericValue).take 30) ∧
    acceptRow (List.replicate 29 (Cell.mk (JNum.fin 1) false)) = none ∧
    numericValue (Cell.mk JNum.nan true) = JNum.fin 0 :=
  ⟨(c10_amended [] (List.replicate 31 (Cell.mk (JNum.fin 1) false))).2.1
      (by decide),
   (c10_amended [] (List.replicate 29 (Cell.mk (JNum.fin 1) false))).2.2.2.1
      (by decide) (by decide),
   (c10_amended [] []).2.2.2.2 (Cell.mk JNum.nan true) rfl⟩

/-- C5: the threshold decision yields Fraudulent exactly when the
    probability is greater than or equal to the threshold; in
    particular, probability exactly equal to the threshold yields
    Fraudulent (closed upper bound). -/
theorem c5_threshold_closed_bound (p t : ℚ) :
    ((decideVerdict p t).1 = Verdict.fraudulent ↔ t ≤ p) ∧
    (decideVerdict t t).1 = Verdict.fraudulent ∧
    (decideVerdict p t).2 = t := by
  refine ⟨?_, ?_, rfl⟩
  · unfold decideVerdict
    by_cases h : t ≤ p
    · simp [h]
    · simp [h]
  · simp [decideVerdict]

theorem c5_witness :
    (decideVerdict (1/2) (1/2)).1 = Verdict.fraudulent ∧
    (decideVerdict (3/10) (1/2)).1 ≠ Verdict.fraudulent :=
  ⟨(c5_threshold_closed_bound (1/2) (1/2)).2.1,
   fun h => absurd ((c5_threshold_closed_bound (3/10) (1/2)).1.mp h)
     (by norm_num)⟩

/-- C8: the prediction service is deterministic — running predict twice
    on an identical input yields an identical result (probability
    included), even though a successful call updates the prediction
    statistics: the result is a function of the immutable configuration
    and the input only. -/
theorem c8_predict_deterministic (raw : List JNum) (s : ServiceState) :
    (corePredictS raw ((corePredictS raw s).2)).1 = (corePredictS raw s).1 := by
  unfold corePredictS
  cases h : corePredict s.cfg raw <;> simp [h]

lemma softVote_unit_range (members : List (ℚ × (List ℚ → ℚ)))
    (x : List ℚ) (hne : members ≠ [])
    (hw : ∀ m ∈ members, 0 < m.1)
    (hp : ∀ m ∈ members, 0 ≤ m.2 x ∧ m.2 x ≤ 1) :
    0 ≤ softVote members x ∧ softVote members x ≤ 1 := by
  have hWpos : 0 < (members.map fun m => m.1).sum := by
    apply List.sum_pos
    · intro w hwmem
      rcases List.mem_map.mp hwmem with ⟨m, hm, rfl⟩
      exact hw m hm
    · simpa using hne
  have hNnonneg : 0 ≤ (members.map fun m => m.1 * m.2 x).sum := by
    apply List.sum_nonneg
    intro a ha
    rcases List.mem_map.mp ha with ⟨m, hm, rfl⟩
    exact mul_nonneg (le_of_lt (hw m hm)) (hp m hm).1
  have hNle : (members.map fun m => m.1 * m.2 x).sum
      ≤ (members.map fun m => m.1).sum := by
    apply List.sum_le_sum
    intro m hm
    calc m.1 * m.2 x ≤ m.1 * 1 :=
          mul_le_mul_of_nonneg_left (hp m hm).2 (le_of_lt (hw m hm))
      _ = m.1 := mul_one m.1
  unfold softVote
  exact ⟨div_nonneg hNnonneg (le_of_lt hWpos), (div_le_one hWpos).mpr hNle⟩

/-- C3 counterexample: 50 is a valid percentage-scale probability, but
    the result panel of the first `ManualPrediction` page displays
    `probability * 100` (i.e. 5000 for 50) and its `getRiskLevel` rates
    any probability at or above 0.7 as High — it interprets the field as
    a 0-to-1 fraction, not as a percentage, while the second variant
    reads the same field on the 0–100 scale. -/
theorem c3_counterexample :
    displayedPercentV1 50 = 5000 ∧
    getRiskLevel 50 = RiskLevel.high ∧
    riskLevelV2 50 = RiskLevel.medium := by
  refine ⟨by norm_num [displayedPercentV1], ?_, ?_⟩
  · unfold getRiskLevel
    norm_num
  · unfold riskLevelV2
    norm_num

/-- C3 amended: for a positive-weight, nonempty ensemble of probability
    classifiers (member outputs in [0,1]), the spec-modelled predict
    returns a probability on the percentage scale, in [0,100]; the
    second `ManualPrediction` variant consumes it on that scale
    (`riskPercentage` uses it directly and its High bucket sits at 70),
    while the first variant multiplies it by 100, treating it as a
    0-to-1 fraction. -/
theorem c3_amended (cfg : CoreConfig) (raw : List JNum) (r : ScoreResult)
    (hne : cfg.members ≠ [])
    (hw : ∀ m ∈ cfg.members, 0 < m.1)
    (hp : ∀ m ∈ cfg.members, ∀ x : List ℚ, 0 ≤ m.2 x ∧ m.2 x ≤ 1)
    (hok : corePredict cfg raw = .ok r) :
    (0 ≤ r.probability ∧ r.probability ≤ 100) ∧
    riskPercentage r.probability = r.probability ∧
    (riskLevelV2 r.probability = RiskLevel.high ↔ 70 ≤ r.probability) ∧
    displayedPercentV1 r.probability = r.probability * 100 := by
  refine ⟨?_, rfl, ?_, rfl⟩
  · unfold corePredict at hok
    cases hval : coreValidate raw with
    | error e => rw [hval] at hok; cases hok
    | ok f =>
      rw [hval] at hok
      simp only at hok
      cases hok
      have hsv := softVote_unit_range cfg.members (f ++ cfg.extract f) hne hw
        (fun m hm => hp m hm (f ++ cfg.extract f))
      constructor
      · simp only
        nlinarith [hsv.1]
      · simp only
        nlinarith [hsv.2]
  · unfold riskLevelV2
    by_cases h : (70:ℚ) ≤ r.probability
    · simp [h]
    · simp only [h, if_false]
      by_cases h2 : (50:ℚ) ≤ r.probability
      · simp [h2, h]
      · simp [h2, h]

theorem c3_witness :
    (0 ≤ (ScoreResult.mk 50 Verdict.fraudulent (1/2) 30).probability ∧
      (ScoreResult.mk 50 Verdict.fraudulent (1/2) 30).probability ≤ 100) ∧
    riskPercentage (ScoreResult.mk 50 Verdict.fraudulent (1/2) 30).probability
      = (ScoreResult.mk 50 Verdict.fraudulent (1/2) 30).probability ∧
    (riskLevelV2 (ScoreResult.mk 50 Verdict.fraudulent (1/2) 30).probability
        = RiskLevel.high ↔
      70 ≤ (ScoreResult.mk 50 Verdict.fraudulent (1/2) 30).probability) ∧
    displayedPercentV1 (ScoreResult.mk 50 Verdict.fraudulent (1/2) 30).probability
      = (ScoreResult.mk 50 Verdict.fraudulent (1/2) 30).probability * 100 := by
  have hne : (CoreConfig.mk (fun _ => []) [((1:ℚ), fun _ => 1/2)] (1/2)).members
      ≠ [] := by simp
  have hw : ∀ m ∈ (CoreConfig.mk (fun _ => []) [((1:ℚ), fun _ => 1/2)]
      (1/2)).members, 0 < m.1 := by
    intro m hm
    simp only [List.mem_singleton] at hm
    subst hm
    norm_num
  have hp : ∀ m ∈ (CoreConfig.mk (fun _ => []) [((1:ℚ), fun _ => 1/2)]
      (1/2)).members, ∀ x : List ℚ, 0 ≤ m.2 x ∧ m.2 x ≤ 1 := by
    intro m hm x
    simp only [List.mem_singleton] at hm
    subst hm
    norm_num
  have hval : coreValidate (List.replicate 30 (JNum.fin 0))
      = Except.ok (List.replicate 30 (0:ℚ)) := rfl
  have hsv : softVote [((1:ℚ), fun _ => 1/2)]
      (List.replicate 30 (0:ℚ) ++ []) = 1/2 := by
    simp [softVote]
  have hok : corePredict (CoreConfig.mk (fun _ => []) [((1:ℚ), fun _ => 1/2)]
        (1/2)) (List.replicate 30 (JNum.fin 0))
      = .ok (ScoreResult.mk 50 Verdict.fraudulent (1/2) 30) := by
    unfold corePredict
    rw [hval]
    simp only [hsv]
    simp [decideVerdict]
    norm_num
  exact c3_amended (CoreConfig.mk (fun _ => []) [((1:ℚ), fun _ => 1/2)] (1/2))
    (List.replicate 30 (JNum.fin 0)) (ScoreResult.mk 50 Verdict.fraudulent
      (1/2) 30) hne hw hp hok

/-- C6: for every ensemble explanation whose members are each exactly
    additive (base value plus summed attributions equals the probability
    that member predicted, as TreeExplainer guarantees), the combined explanation
    — weights mirroring the soft-voting weights — satisfies the
    additivity invariant exactly: combined base value plus the sum of
    all combined per-feature attributions equals the final soft-voted
    probability, hence lies within the 1e-4 tolerance. -/
theorem c6_additivity {n : Nat} (ms : List (MemberExplanation n))
    (h : ∀ m ∈ ms, m.baseValue + ∑ j : Fin n, m.attr j = m.prob) :
    combinedBase ms + ∑ j : Fin n, combinedAttr ms j = combinedProb ms ∧
    |combinedBase ms + (∑ j : Fin n, combinedAttr ms j) - combinedProb ms|
      < 1/10000 := by
  have key : combinedBase ms + ∑ j : Fin n, combinedAttr ms j
      = combinedProb ms := by
    unfold combinedBase combinedAttr combinedProb
    rw [← Finset.sum_div]
    rw [sum_univ_list_sum ms (fun m j => m.weight * m.attr j)]
    rw [div_add_div_same]
    congr 1
    rw [← list_sum_map_add ms (fun m => m.weight * m.baseValue)
      (fun m => ∑ j : Fin n, m.weight * m.attr j)]
    have hmap : (ms.map fun m =>
          m.weight * m.baseValue + ∑ j : Fin n, m.weight * m.attr j)
        = ms.map fun m => m.weight * m.prob :=
      List.map_congr_left fun m hm => by
        rw [← Finset.mul_sum, ← mul_add, h m hm]
    rw [hmap]
  refine ⟨key, ?_⟩
  rw [key, sub_self, abs_zero]
  norm_num

theorem c6_witness :
    combinedBase [MemberExplanation.mk 1 (1/10) ![2/10, 1/10] (4/10),
                  MemberExplanation.mk 3 (2/10) ![1/10, 3/10] (6/10)]
      + ∑ j : Fin 2,
          combinedAttr [MemberExplanation.mk 1 (1/10) ![2/10, 1/10] (4/10),
                        MemberExplanation.mk 3 (2/10) ![1/10, 3/10] (6/10)] j
      = combinedProb [MemberExplanation.mk 1 (1/10) ![2/10, 1/10] (4/10),
                      MemberExplanation.mk 3 (2/10) ![1/10, 3/10] (6/10)] ∧
    |combinedBase [MemberExplanation.mk 1 (1/10) ![2/10, 1/10] (4/10),
                   MemberExplanation.mk 3 (2/10) ![1/10, 3/10] (6/10)]
      + (∑ j : Fin 2,
          combinedAttr [MemberExplanation.mk 1 (1/10) ![2/10, 1/10] (4/10),
                        MemberExplanation.mk 3 (2/10) ![1/10, 3/10] (6/10)] j)
      - combinedProb [MemberExplanation.mk 1 (1/10) ![2/10, 1/10] (4/10),
                      MemberExplanation.mk 3 (2/10) ![1/10, 3/10] (6/10)]|
      < 1/10000 := by
  apply c6_additivity
  intro m hm
  simp only [List.mem_cons, List.mem_singleton] at hm
  rcases hm with rfl | rfl | hm
  · simp [Fin.sum_univ_two]
    norm_num
  · simp [Fin.sum_univ_two]
    norm_num
  · simp at hm
